import Mathlib

/-!
Verification of the adaptive session-performance engine and structured-content
generation pipeline of the economentor repository.

The embedding below translates the TypeScript source into Lean:
* the Performance Tracker (`getOrCreateSessionPerformance`,
  `updateSessionPerformance`, server/db.ts) over an explicit list of
  database rows;
* the Correctness Inference Engine (`detectAnswerCorrectness`,
  server/routers/chat.ts);
* the Structured Content Extractor and Content Generator
  (`generatePracticeProblems`, `generateQuiz`, `submitQuizAnswer`,
  server/routers/learning.ts), with the external model call and the
  per-item persistence outcomes passed in as explicit parameters.

JavaScript numbers are embedded as `Nat`/`Int`/`Rat`; `Math.round` on the
exact ratio is round half toward positive infinity, which for nonnegative
integer numerator and positive integer denominator is the integer-division
formula proved equivalent to the rational floor form below.
-/

namespace Economentor

/-- Difficulty tier, the `"easy" | "medium" | "hard"` union of the source. -/
inductive Difficulty where
  | easy
  | medium
  | hard
deriving DecidableEq, Repr

/-- One row of the `sessionPerformance` table (db.ts), with the columns the
core reads and writes. -/
structure SessionPerformanceRow where
  sessionId : String
  totalProblems : Nat
  correctAnswers : Nat
  accuracyRate : Nat
  currentDifficulty : Difficulty
deriving DecidableEq, Repr

/-- The four-field object literal returned by `updateSessionPerformance`
(db.ts lines 330-335). -/
structure PerformanceSnapshot where
  totalProblems : Nat
  correctAnswers : Nat
  accuracyRate : Nat
  currentDifficulty : Difficulty
deriving DecidableEq, Repr

/-- Embeds `Math.round((newCorrect / newTotal) * 100)` (db.ts line 306).
`Math.round` rounds half toward positive infinity; on the exact rational
value `100 * c / t` with `t > 0` that is `⌊100 * c / t + 1 / 2⌋`, which
equals the natural-number division `(200 * c + t) / (2 * t)`.  The lemma
`jsRound100_cast` below proves this equality against the floor-based
definition taken from the specification's words. -/
def jsRound100 (c t : Nat) : Nat :=
  (200 * c + t) / (2 * t)

/-- Round half up on the exact real-valued ratio, written from the
specification's words (spec section 4.2: standard round-half-up on the
real-valued ratio). -/
def roundHalfUp (x : ℚ) : ℤ :=
  ⌊x + 1 / 2⌋

/-- The pure arithmetic core of `updateSessionPerformance` (db.ts lines
302-335): given the current performance row, compute the new snapshot that
is both persisted and returned. -/
def updateSessionPerformance (row : SessionPerformanceRow) (isCorrect : Bool) :
    PerformanceSnapshot :=
  let newTotal := row.totalProblems + 1
  let newCorrect := if isCorrect then row.correctAnswers + 1 else row.correctAnswers
  let newAccuracy := jsRound100 newCorrect newTotal
  let newDifficulty :=
    if 3 ≤ newTotal then
      if 80 ≤ newAccuracy then Difficulty.hard
      else if 60 ≤ newAccuracy then Difficulty.medium
      else Difficulty.easy
    else row.currentDifficulty
  { totalProblems := newTotal
    correctAnswers := newCorrect
    accuracyRate := newAccuracy
    currentDifficulty := newDifficulty }

/-- The zeroed row inserted by `getOrCreateSessionPerformance` for a session
with no performance record (db.ts lines 276-282). -/
def freshRow (sid : String) : SessionPerformanceRow :=
  { sessionId := sid
    totalProblems := 0
    correctAnswers := 0
    accuracyRate := 0
    currentDifficulty := Difficulty.medium }

/-- Row predicate of `where(eq(sessionPerformance.sessionId, sessionId))`. -/
def bySession (sid : String) (r : SessionPerformanceRow) : Bool :=
  r.sessionId == sid

/-- Embeds `getOrCreateSessionPerformance` (db.ts lines 260-293) over the
database modelled as the list of `sessionPerformance` rows: select the first
row for the session; if none, insert the zeroed row and re-select it
(`created[0]`; the `getD` covers the re-select coming back empty, which
cannot happen right after the insert). Returns the row together with the
updated database. -/
def getOrCreateSessionPerformance (db : List SessionPerformanceRow) (sid : String) :
    SessionPerformanceRow × List SessionPerformanceRow :=
  match db.find? (bySession sid) with
  | some r => (r, db)
  | none =>
      let fresh := freshRow sid
      let db1 := db ++ [fresh]
      ((db1.find? (bySession sid)).getD fresh, db1)

/-- Writes the snapshot fields onto a row, the `.set({...})` clause of the
update statement in db.ts lines 320-328. -/
def applySnapshot (snap : PerformanceSnapshot) (r : SessionPerformanceRow) :
    SessionPerformanceRow :=
  { r with
    totalProblems := snap.totalProblems
    correctAnswers := snap.correctAnswers
    accuracyRate := snap.accuracyRate
    currentDifficulty := snap.currentDifficulty }

/-- Embeds the full `updateSessionPerformance` (db.ts lines 295-336):
get-or-create the row, compute the new snapshot, persist it on every row of
the session (there is exactly one), and return the snapshot. -/
def updateSessionPerformanceDB (db : List SessionPerformanceRow) (sid : String)
    (isCorrect : Bool) : PerformanceSnapshot × List SessionPerformanceRow :=
  let gc := getOrCreateSessionPerformance db sid
  let snap := updateSessionPerformance gc.1 isCorrect
  (snap, gc.2.map (fun r => if bySession sid r then applySnapshot snap r else r))

/-- The database state after a sequence of `updateSessionPerformance` calls
for one session, each call reading the state the previous one wrote. -/
def runUpdatesDB (db : List SessionPerformanceRow) (sid : String)
    (bs : List Bool) : List SessionPerformanceRow :=
  bs.foldl (fun d b => (updateSessionPerformanceDB d sid b).2) db

/-- Number of updates in a run that report a correct answer. -/
def countTrue (bs : List Bool) : Nat :=
  bs.count true

/-- The integer-division embedding of `Math.round((c / t) * 100)` agrees with
round-half-up on the exact rational ratio whenever the denominator is
positive. -/
lemma jsRound100_cast (c t : Nat) (ht : 0 < t) :
    ((jsRound100 c t : Nat) : ℤ) = roundHalfUp (100 * (c : ℚ) / (t : ℚ)) := by
  unfold jsRound100 roundHalfUp
  have hq : 100 * (c : ℚ) / (t : ℚ) + 1 / 2 =
      ((200 * c + t : ℕ) : ℚ) / ((2 * t : ℕ) : ℚ) := by
    have ht' : (t : ℚ) ≠ 0 := by exact_mod_cast ht.ne'
    push_cast
    field_simp
    ring
  have hnn : (0 : ℚ) ≤ ((200 * c + t : ℕ) : ℚ) / ((2 * t : ℕ) : ℚ) := by positivity
  rw [hq, ← Int.natCast_floor_eq_floor hnn, Nat.floor_div_eq_div]

/-- A keyed in-place update (`map` with an `if` on the key predicate) moves
`find?` across: the first hit is replaced by its image, provided the
replacement keeps the key. -/
lemma find?_map_if {α : Type} (p : α → Bool) (g : α → α)
    (hg : ∀ a, p (g a) = p a) :
    ∀ (l : List α) (row : α), l.find? p = some row →
      (l.map (fun a => if p a then g a else a)).find? p = some (g row) := by
  intro l
  induction l with
  | nil => intro row h; simp at h
  | cons a l ih =>
      intro row h
      by_cases hpa : p a = true
      · have hrow : row = a := by
          rw [List.find?_cons_of_pos _ hpa] at h
          exact (Option.some.inj h).symm
        subst hrow
        have hga : p (g row) = true := by rw [hg]; exact hpa
        simp only [List.map_cons, if_pos hpa]
        exact List.find?_cons_of_pos _ hga
      · rw [List.find?_cons_of_neg _ hpa] at h
        simp only [List.map_cons, if_neg hpa]
        rw [List.find?_cons_of_neg _ hpa]
        exact ih row h

/-- One tracked update on a database that already holds a row for the
session: the returned snapshot is computed from that row, and the session's
stored row afterwards carries exactly the snapshot fields. -/
lemma updateSessionPerformanceDB_found {db : List SessionPerformanceRow}
    {sid : String} {row : SessionPerformanceRow} (b : Bool)
    (h : db.find? (bySession sid) = some row) :
    (updateSessionPerformanceDB db sid b).1 = updateSessionPerformance row b ∧
    (updateSessionPerformanceDB db sid b).2.find? (bySession sid) =
      some (applySnapshot (updateSessionPerformance row b) row) := by
  have hgc : getOrCreateSessionPerformance db sid = (row, db) := by
    unfold getOrCreateSessionPerformance
    rw [h]
  constructor
  · unfold updateSessionPerformanceDB
    rw [hgc]
  · unfold updateSessionPerformanceDB
    rw [hgc]
    show List.find? (bySession sid)
        (db.map (fun r =>
          if bySession sid r then applySnapshot (updateSessionPerformance row b) r else r)) =
      some (applySnapshot (updateSessionPerformance row b) row)
    exact find?_map_if (bySession sid) (applySnapshot (updateSessionPerformance row b))
      (fun a => rfl) db row h

/-- One tracked update on a database with no row for the session: the lazily
created zeroed row is read, and the stored row afterwards carries the
snapshot computed from the zeroed row. -/
lemma updateSessionPerformanceDB_none {db : List SessionPerformanceRow}
    {sid : String} (b : Bool) (h : db.find? (bySession sid) = none) :
    (updateSessionPerformanceDB db sid b).1 =
      updateSessionPerformance (freshRow sid) b ∧
    (updateSessionPerformanceDB db sid b).2.find? (bySession sid) =
      some (applySnapshot (updateSessionPerformance (freshRow sid) b) (freshRow sid)) := by
  have hfresh : bySession sid (freshRow sid) = true := by
    simp [bySession, freshRow]
  have hdb1 : (db ++ [freshRow sid]).find? (bySession sid) = some (freshRow sid) := by
    rw [List.find?_append, h]
    simp [List.find?_cons_of_pos _ hfresh]
  have hgc : getOrCreateSessionPerformance db sid =
      (freshRow sid, db ++ [freshRow sid]) := by
    unfold getOrCreateSessionPerformance
    rw [h]
    show (((db ++ [freshRow sid]).find? (bySession sid)).getD (freshRow sid),
        db ++ [freshRow sid]) = (freshRow sid, db ++ [freshRow sid])
    rw [hdb1]
    rfl
  constructor
  · unfold updateSessionPerformanceDB
    rw [hgc]
  · unfold updateSessionPerformanceDB
    rw [hgc]
    show List.find? (bySession sid)
        ((db ++ [freshRow sid]).map (fun r =>
          if bySession sid r then
            applySnapshot (updateSessionPerformance (freshRow sid) b) r
          else r)) =
      some (applySnapshot (updateSessionPerformance (freshRow sid) b) (freshRow sid))
    exact find?_map_if (bySession sid) (applySnapshot (updateSessionPerformance (freshRow sid) b))
      (fun a => rfl) _ _ hdb1

/-- Invariant of a sequential run of tracked updates starting from a
database that holds a row for the session: the stored row's counters grow by
the length and by the number of correct reports, and after at least one
update the stored accuracy is the rounded ratio of the stored counters. -/
lemma runUpdates_found (sid : String) (bs : List Bool) :
    ∀ (db : List SessionPerformanceRow) (row : SessionPerformanceRow),
      db.find? (bySession sid) = some row →
      ∃ row', (runUpdatesDB db sid bs).find? (bySession sid) = some row' ∧
        row'.totalProblems = row.totalProblems + bs.length ∧
        row'.correctAnswers = row.correctAnswers + countTrue bs ∧
        (bs = [] → row' = row) ∧
        (bs ≠ [] →
          row'.accuracyRate = jsRound100 row'.correctAnswers row'.totalProblems) := by
  induction bs with
  | nil =>
      intro db row h
      refine ⟨row, ?_, ?_, ?_, fun _ => rfl, fun hne => absurd rfl hne⟩
      · simpa [runUpdatesDB] using h
      · simp
      · simp [countTrue]
  | cons b bs ih =>
      intro db row h
      have hstep := updateSessionPerformanceDB_found b h
      obtain ⟨row', hfind, htot, hcor, hnil, hne⟩ := ih _ _ hstep.2
      refine ⟨row', hfind, ?_, ?_, ?_, ?_⟩
      · rw [htot]
        show row.totalProblems + 1 + bs.length = row.totalProblems + (b :: bs).length
        simp [List.length_cons]
        omega
      · rw [hcor]
        cases b <;>
          simp [applySnapshot, updateSessionPerformance, countTrue, List.count_cons] <;>
          omega
      · intro hcontr
        exact absurd hcontr (List.cons_ne_nil b bs)
      · intro _
        by_cases hbs : bs = []
        · subst hbs
          have hr := hnil rfl
          subst hr
          rfl
        · exact hne hbs

/-- Claim C1: for every session whose current performance row holds
`totalProblems = t` and `correctAnswers = c`, a call to
`updateSessionPerformance(sessionId, isCorrect)` persists and returns a
snapshot with `totalProblems = t + 1`,
`correctAnswers = c + (1 if isCorrect else 0)` and
`accuracyRate = round(100 * newCorrect / newTotal)` with round-half-up on
the real-valued ratio; consequently after `N` sequential update calls of
which `k` report correct, the persisted row is
`{totalProblems = N, correctAnswers = k, accuracyRate = round(100k/N)}`. -/
theorem updateSessionPerformance_counters_and_rounding :
    (∀ (row : SessionPerformanceRow) (b : Bool),
      (updateSessionPerformance row b).totalProblems = row.totalProblems + 1 ∧
      (updateSessionPerformance row b).correctAnswers =
        row.correctAnswers + (if b then 1 else 0) ∧
      ((updateSessionPerformance row b).accuracyRate : ℤ) =
        roundHalfUp (100 * ((row.correctAnswers + if b then 1 else 0 : ℕ) : ℚ) /
          ((row.totalProblems + 1 : ℕ) : ℚ))) ∧
    (∀ (db : List SessionPerformanceRow) (sid : String) (b : Bool) (bs : List Bool),
      db.find? (bySession sid) = none →
      ∃ row', (runUpdatesDB db sid (b :: bs)).find? (bySession sid) = some row' ∧
        row'.totalProblems = (b :: bs).length ∧
        row'.correctAnswers = countTrue (b :: bs) ∧
        (row'.accuracyRate : ℤ) =
          roundHalfUp (100 * ((countTrue (b :: bs) : ℕ) : ℚ) /
            (((b :: bs).length : ℕ) : ℚ))) := by
  constructor
  · intro row b
    have hcor : (updateSessionPerformance row b).correctAnswers =
        row.correctAnswers + (if b then 1 else 0) := by
      cases b <;> simp [updateSessionPerformance]
    refine ⟨rfl, hcor, ?_⟩
    have hacc : (updateSessionPerformance row b).accuracyRate =
        jsRound100 (row.correctAnswers + if b then 1 else 0) (row.totalProblems + 1) := by
      cases b <;> simp [updateSessionPerformance, jsRound100]
    rw [hacc, jsRound100_cast _ _ (Nat.succ_pos _)]
  · intro db sid b bs h
    have hstep := updateSessionPerformanceDB_none b h
    have hrun : runUpdatesDB db sid (b :: bs) =
        runUpdatesDB (updateSessionPerformanceDB db sid b).2 sid bs := rfl
    obtain ⟨row', hfind, htot, hcor, hnil, hne⟩ :=
      runUpdates_found sid bs _ _ hstep.2
    have htot' : row'.totalProblems = (b :: bs).length := by
      rw [htot]
      simp [applySnapshot, updateSessionPerformance, freshRow, List.length_cons]
      omega
    have hcor' : row'.correctAnswers = countTrue (b :: bs) := by
      rw [hcor]
      cases b <;>
        simp [applySnapshot, updateSessionPerformance, freshRow, countTrue,
          List.count_cons] <;>
        omega
    have hacc : row'.accuracyRate = jsRound100 row'.correctAnswers row'.totalProblems := by
      by_cases hbs : bs = []
      · subst hbs
        have hr := hnil rfl
        subst hr
        rfl
      · exact hne hbs
    refine ⟨row', by rw [hrun]; exact hfind, htot', hcor', ?_⟩
    rw [hacc, hcor', htot']
    exact jsRound100_cast _ _ (by simp)

/-- Witness for claim C1 at a concrete run: an empty database, session
identifier `"s"`, and the update sequence correct-then-incorrect. -/
theorem updateSessionPerformance_counters_and_rounding_witness :
    ∃ row', (runUpdatesDB ([] : List SessionPerformanceRow) "s"
        (true :: [false])).find? (bySession "s") = some row' ∧
      row'.totalProblems = (true :: [false]).length ∧
      row'.correctAnswers = countTrue (true :: [false]) ∧
      (row'.accuracyRate : ℤ) =
        roundHalfUp (100 * ((countTrue (true :: [false]) : ℕ) : ℚ) /
          (((true :: [false]).length : ℕ) : ℚ)) :=
  updateSessionPerformance_counters_and_rounding.2 [] "s" true [false] rfl

/-- The difficulty decision of a tracked update, phrased on the snapshot's
own accuracy field (db.ts lines 308-318). -/
lemma updateSessionPerformance_difficulty_eq (row : SessionPerformanceRow) (b : Bool) :
    (updateSessionPerformance row b).currentDifficulty =
      if 3 ≤ row.totalProblems + 1 then
        if 80 ≤ (updateSessionPerformance row b).accuracyRate then Difficulty.hard
        else if 60 ≤ (updateSessionPerformance row b).accuracyRate then Difficulty.medium
        else Difficulty.easy
      else row.currentDifficulty := by
  cases b <;> rfl

/-- Claim C2: a tracked update leaves `currentDifficulty` unchanged while
the incremented total stays below 3; from the third problem on, the new
difficulty is `hard` when the new accuracy is at least 80, `medium` when it
is in `[60, 80)`, and `easy` below 60. -/
theorem updateSessionPerformance_difficulty :
    ∀ (row : SessionPerformanceRow) (b : Bool),
      (row.totalProblems + 1 < 3 →
        (updateSessionPerformance row b).currentDifficulty = row.currentDifficulty) ∧
      (3 ≤ row.totalProblems + 1 →
        (80 ≤ (updateSessionPerformance row b).accuracyRate →
          (updateSessionPerformance row b).currentDifficulty = Difficulty.hard) ∧
        (60 ≤ (updateSessionPerformance row b).accuracyRate ∧
            (updateSessionPerformance row b).accuracyRate < 80 →
          (updateSessionPerformance row b).currentDifficulty = Difficulty.medium) ∧
        ((updateSessionPerformance row b).accuracyRate < 60 →
          (updateSessionPerformance row b).currentDifficulty = Difficulty.easy)) := by
  intro row b
  rw [updateSessionPerformance_difficulty_eq]
  constructor
  · intro h3
    rw [if_neg (by omega)]
  · intro h3
    rw [if_pos h3]
    refine ⟨?_, ?_, ?_⟩ <;> intro hacc <;> split_ifs <;> first | rfl | omega

/-- Witness for claim C2: with 2 problems and 1 correct, a third correct
answer rounds to 67 percent and moves the difficulty to `medium`; a first
answer on a fresh row (total 1 below 3) leaves a `hard` difficulty as is. -/
theorem updateSessionPerformance_difficulty_witness :
    (updateSessionPerformance ⟨"s", 2, 1, 50, Difficulty.easy⟩ true).currentDifficulty =
      Difficulty.medium ∧
    (updateSessionPerformance ⟨"s", 0, 0, 0, Difficulty.hard⟩ false).currentDifficulty =
      Difficulty.hard :=
  ⟨(updateSessionPerformance_difficulty ⟨"s", 2, 1, 50, Difficulty.easy⟩ true).2
      (by decide) |>.2.1 (by decide),
    (updateSessionPerformance_difficulty ⟨"s", 0, 0, 0, Difficulty.hard⟩ false).1
      (by decide)⟩

/-- Claim C9: `getOrCreateSessionPerformance` is sequentially idempotent:
on a session with no performance row the first call inserts exactly the
zeroed row `{0, 0, 0, medium}` and returns it, and a second sequential call
returns the same row without inserting again, leaving exactly one row for
the session. -/
theorem getOrCreateSessionPerformance_idempotent :
    ∀ (db : List SessionPerformanceRow) (sid : String),
      db.find? (bySession sid) = none →
      (getOrCreateSessionPerformance db sid).1 = freshRow sid ∧
      (getOrCreateSessionPerformance db sid).2 = db ++ [freshRow sid] ∧
      (getOrCreateSessionPerformance (db ++ [freshRow sid]) sid).1 = freshRow sid ∧
      (getOrCreateSessionPerformance (db ++ [freshRow sid]) sid).2 =
        db ++ [freshRow sid] ∧
      ((db ++ [freshRow sid]).filter (bySession sid)).length = 1 := by
  intro db sid h
  have hfresh : bySession sid (freshRow sid) = true := by
    simp [bySession, freshRow]
  have hdb1 : (db ++ [freshRow sid]).find? (bySession sid) = some (freshRow sid) := by
    rw [List.find?_append, h]
    simp [List.find?_cons_of_pos _ hfresh]
  have hgc1 : getOrCreateSessionPerformance db sid =
      (freshRow sid, db ++ [freshRow sid]) := by
    unfold getOrCreateSessionPerformance
    rw [h]
    show (((db ++ [freshRow sid]).find? (bySession sid)).getD (freshRow sid),
        db ++ [freshRow sid]) = (freshRow sid, db ++ [freshRow sid])
    rw [hdb1]
    rfl
  have hgc2 : getOrCreateSessionPerformance (db ++ [freshRow sid]) sid =
      (freshRow sid, db ++ [freshRow sid]) := by
    unfold getOrCreateSessionPerformance
    rw [hdb1]
  have hfilter : db.filter (bySession sid) = [] := by
    rw [List.filter_eq_nil_iff]
    exact List.find?_eq_none.mp h
  refine ⟨by rw [hgc1], by rw [hgc1], by rw [hgc2], by rw [hgc2], ?_⟩
  rw [List.filter_append, hfilter]
  simp [hfresh]

/-- Witness for claim C9 on the empty database and session `"s1"`. -/
theorem getOrCreateSessionPerformance_idempotent_witness :
    (getOrCreateSessionPerformance [] "s1").1 = freshRow "s1" ∧
    (getOrCreateSessionPerformance [] "s1").2 = [] ++ [freshRow "s1"] ∧
    (getOrCreateSessionPerformance ([] ++ [freshRow "s1"]) "s1").1 = freshRow "s1" ∧
    (getOrCreateSessionPerformance ([] ++ [freshRow "s1"]) "s1").2 =
      [] ++ [freshRow "s1"] ∧
    (([] ++ [freshRow "s1"]).filter (bySession "s1")).length = 1 :=
  getOrCreateSessionPerformance_idempotent [] "s1" rfl

/-! ### Correctness Inference Engine (chat.ts lines 466-529) -/

/-- Case folding applied by the `/i` regex flag: both the marker and the
response are compared after lowercasing (the markers in the source are
already lowercase ASCII or caseless Japanese). -/
def lowerChars (s : String) : List Char :=
  s.data.map Char.toLower

/-- Substring containment on character lists: some suffix of the haystack
starts with the needle. -/
def containsSub (needle haystack : List Char) : Bool :=
  match haystack with
  | [] => needle.isEmpty
  | _ :: t => needle.isPrefixOf haystack || containsSub needle t

/-- One marker regex `pattern.test(aiResponse)` with the `/i` flag: each
source pattern is a literal alternative, so the test is case-insensitive
substring containment. -/
def patternTest (pattern text : String) : Bool :=
  containsSub (lowerChars pattern) (lowerChars text)

/-- The `incorrectPatterns` list of chat.ts lines 472-494, in source
order. -/
def incorrectPatterns : List String :=
  ["不正解", "間違い", "残念", "惜しい", "もう少し", "違います",
   "正しくありません", "正しくない", "誤り", "違って", "ではありません",
   "ではない", "ちょっと違", "実は", "正解は", "incorrect", "wrong",
   "not correct", "not right", "not quite", "unfortunately"]

/-- The `correctPatterns` list of chat.ts lines 503-519, in source order. -/
def correctPatterns : List String :=
  ["正解です", "正しいです", "その通り", "完璧", "素晴らしい",
   "よくできました", "お見事", "正解！", "合っています", "excellent",
   "correct", "that\x27s right", "well done", "good job", "exactly"]

/-- Embeds `detectAnswerCorrectness(userMessage, aiResponse)` (chat.ts lines
467-529): scan the incorrect markers first and return `false` on the first
hit; only then scan the correct markers and return `true` on the first hit;
otherwise no answer is detected (`null`). -/
def detectAnswerCorrectness (userMessage aiResponse : String) : Option Bool :=
  if incorrectPatterns.any (fun p => patternTest p aiResponse) then some false
  else if correctPatterns.any (fun p => patternTest p aiResponse) then some true
  else none

/-- Claim C3: the inference returns `false` whenever some incorrect marker
matches, even if a correct marker also matches; it returns `true` exactly
when no incorrect marker matches and some correct marker does; and it
returns `null` exactly when no marker of either list matches. -/
theorem detectAnswerCorrectness_order :
    ∀ (userMessage aiResponse : String),
      (incorrectPatterns.any (fun p => patternTest p aiResponse) = true →
        detectAnswerCorrectness userMessage aiResponse = some false) ∧
      (detectAnswerCorrectness userMessage aiResponse = some true ↔
        incorrectPatterns.any (fun p => patternTest p aiResponse) = false ∧
        correctPatterns.any (fun p => patternTest p aiResponse) = true) ∧
      (detectAnswerCorrectness userMessage aiResponse = none ↔
        incorrectPatterns.any (fun p => patternTest p aiResponse) = false ∧
        correctPatterns.any (fun p => patternTest p aiResponse) = false) := by
  intro userMessage aiResponse
  unfold detectAnswerCorrectness
  rcases hinc : incorrectPatterns.any (fun p => patternTest p aiResponse) with _ | _ <;>
    rcases hcor : correctPatterns.any (fun p => patternTest p aiResponse) with _ | _ <;>
    simp

/-- Witness for claim C3: a response that carries both the incorrect marker
`not quite` and the correct marker `well done` classifies as incorrect. -/
theorem detectAnswerCorrectness_order_witness :
    detectAnswerCorrectness "my answer" "Not quite, but well done!" = some false :=
  (detectAnswerCorrectness_order "my answer" "Not quite, but well done!").1 (by rfl)

/-- Claim C10: the inference result depends only on the assistant response
text; the user-message argument has no influence on the output. -/
theorem detectAnswerCorrectness_ignores_userMessage :
    ∀ (m1 m2 r : String),
      detectAnswerCorrectness m1 r = detectAnswerCorrectness m2 r := by
  intro m1 m2 r
  rfl

/-! ### Structured Content Extractor (learning.ts lines 161-183 and 295-314)

`JSON.parse` is modelled by a recursive-descent parser over the JSON
fragment the generator traffic uses: null, booleans, integer numbers,
strings with the common escapes, arrays and objects. -/

/-- The JSON value universe of the model of `JSON.parse`. -/
inductive Json where
  | null
  | bool (b : Bool)
  | num (n : Int)
  | str (s : String)
  | arr (elems : List Json)
  | obj (fields : List (String × Json))

/-- JSON insignificant whitespace: space, tab, line feed, carriage
return. -/
def jsonWs (c : Char) : Bool :=
  c == ' ' || c == '\t' || c == '\n' || c == '\r'

/-- Skip insignificant whitespace. -/
def skipWs (l : List Char) : List Char :=
  l.dropWhile jsonWs

/-- String escapes the model supports (the common subset). -/
def escChar (c : Char) : Option Char :=
  if c = '"' then some '"'
  else if c = '\\' then some '\\'
  else if c = '/' then some '/'
  else if c = 'n' then some '\n'
  else if c = 't' then some '\t'
  else if c = 'r' then some '\r'
  else none

/-- Parse the body of a JSON string after the opening quote, returning the
decoded string and the remainder after the closing quote. -/
def parseStringBody : List Char → List Char → Option (String × List Char)
  | [], _ => none
  | '\\' :: rest, acc =>
      match rest with
      | [] => none
      | e :: rest2 =>
          match escChar e with
          | some c => parseStringBody rest2 (c :: acc)
          | none => none
  | '"' :: rest, acc => some (⟨acc.reverse⟩, rest)
  | c :: rest, acc => parseStringBody rest (c :: acc)

/-- Decimal value of a digit character. -/
def digitVal (c : Char) : Nat :=
  c.toNat - 48

/-- Parse a nonempty digit run into a natural number. -/
def parseNatNum (l : List Char) : Option (Nat × List Char) :=
  let ds := l.takeWhile (fun c => c.isDigit)
  if ds.isEmpty then none
  else some (ds.foldl (fun n c => n * 10 + digitVal c) 0,
    l.dropWhile (fun c => c.isDigit))

/-- Parse an optionally negated integer number. -/
def parseNumber (l : List Char) : Option (Int × List Char) :=
  match l with
  | '-' :: rest => (parseNatNum rest).map (fun p => (-(p.1 : Int), p.2))
  | _ => (parseNatNum l).map (fun p => ((p.1 : Int), p.2))

mutual

/-- Parse one JSON value, fuel-bounded. -/
def parseValue : Nat → List Char → Option (Json × List Char)
  | 0, _ => none
  | fuel + 1, l =>
      match skipWs l with
      | 'n' :: 'u' :: 'l' :: 'l' :: rest => some (Json.null, rest)
      | 't' :: 'r' :: 'u' :: 'e' :: rest => some (Json.bool true, rest)
      | 'f' :: 'a' :: 'l' :: 's' :: 'e' :: rest => some (Json.bool false, rest)
      | '"' :: rest => (parseStringBody rest []).map (fun p => (Json.str p.1, p.2))
      | '[' :: rest =>
          match parseElems fuel rest with
          | some (vs, rest2) => some (Json.arr vs, rest2)
          | none => none
      | '\x7b' :: rest =>
          match parseMembers fuel rest with
          | some (kvs, rest2) => some (Json.obj kvs, rest2)
          | none => none
      | c :: rest =>
          if c = '-' ∨ c.isDigit then
            (parseNumber (c :: rest)).map (fun p => (Json.num p.1, p.2))
          else none
      | [] => none

/-- Parse the element list right after `[`. -/
def parseElems : Nat → List Char → Option (List Json × List Char)
  | 0, _ => none
  | fuel + 1, l =>
      match skipWs l with
      | ']' :: rest => some ([], rest)
      | l' =>
          match parseValue fuel l' with
          | none => none
          | some (v, rest) =>
              match parseElemsTail fuel rest with
              | none => none
              | some (vs, rest2) => some (v :: vs, rest2)

/-- Parse `, value` continuations or the closing `]`. -/
def parseElemsTail : Nat → List Char → Option (List Json × List Char)
  | 0, _ => none
  | fuel + 1, l =>
      match skipWs l with
      | ']' :: rest => some ([], rest)
      | ',' :: rest =>
          match parseValue fuel rest with
          | none => none
          | some (v, rest2) =>
              match parseElemsTail fuel rest2 with
              | none => none
              | some (vs, rest3) => some (v :: vs, rest3)
      | _ => none

/-- Parse the member list right after the opening brace. -/
def parseMembers : Nat → List Char → Option (List (String × Json) × List Char)
  | 0, _ => none
  | fuel + 1, l =>
      match skipWs l with
      | '\x7d' :: rest => some ([], rest)
      | '"' :: rest =>
          match parseStringBody rest [] with
          | none => none
          | some (k, rest2) =>
              match skipWs rest2 with
              | ':' :: rest3 =>
                  match parseValue fuel rest3 with
                  | none => none
                  | some (v, rest4) =>
                      match parseMembersTail fuel rest4 with
                      | none => none
                      | some (kvs, rest5) => some ((k, v) :: kvs, rest5)
              | _ => none
      | _ => none

/-- Parse `, "key": value` continuations or the closing brace. -/
def parseMembersTail : Nat → List Char → Option (List (String × Json) × List Char)
  | 0, _ => none
  | fuel + 1, l =>
      match skipWs l with
      | '\x7d' :: rest => some ([], rest)
      | ',' :: rest =>
          match skipWs rest with
          | '"' :: rest1 =>
              match parseStringBody rest1 [] with
              | none => none
              | some (k, rest2) =>
                  match skipWs rest2 with
                  | ':' :: rest3 =>
                      match parseValue fuel rest3 with
                      | none => none
                      | some (v, rest4) =>
                          match parseMembersTail fuel rest4 with
                          | none => none
                          | some (kvs, rest5) => some ((k, v) :: kvs, rest5)
                  | _ => none
          | _ => none
      | _ => none

end

/-- The model of `JSON.parse`: parse one value and require only whitespace
after it; any failure is the thrown `SyntaxError`, modelled as `none`. -/
def parseJson (l : List Char) : Option Json :=
  match parseValue (2 * l.length + 2) l with
  | some (v, rest) => if (skipWs rest).isEmpty then some v else none
  | none => none

/-- Whitespace of the regex class `\s` (the ASCII part; the exotic Unicode
spaces do not occur in the traffic being modelled). -/
def regexWs (c : Char) : Bool :=
  c == ' ' || c == '\t' || c == '\n' || c == '\r' || c == '\x0b' || c == '\x0c'

/-- The greedy tail of the regex `\[\s*\{[\s\S]*\}\s*\]`: on the reversed
remainder after the opening brace, find the closing `]` nearest the end
that is preceded (modulo whitespace) by a closing brace, returning how many
characters of the un-reversed remainder the match consumes. -/
def findCloseRev : List Char → Option Nat
  | [] => none
  | c :: rest =>
      if c = ']' then
        match rest.dropWhile regexWs with
        | '\x7d' :: _ => some (rest.length + 1)
        | _ => findCloseRev rest
      else findCloseRev rest

/-- The model of `response.match(/\[\s*\{[\s\S]*\}\s*\]/)`: leftmost match
start (a `[` followed, after optional whitespace, by an opening brace),
greedy extent (up to the last closing brace and `]` pair in the rest of the
text). -/
def jsonArrayMatch : List Char → Option (List Char)
  | [] => none
  | c :: rest =>
      if c = '[' then
        match rest.dropWhile regexWs with
        | '\x7b' :: body =>
            match findCloseRev body.reverse with
            | some consumed =>
                some ('[' :: (rest.takeWhile regexWs ++ '\x7b' :: body.take consumed))
            | none => jsonArrayMatch rest
        | _ => jsonArrayMatch rest
      else jsonArrayMatch rest

/-- `const jsonStr = jsonMatch ? jsonMatch[0] : response` (learning.ts line
169): the matched substring when the regex matches, otherwise the whole
response. -/
def jsonStrChoice (raw : List Char) : List Char :=
  match jsonArrayMatch raw with
  | some m => m
  | none => raw

/-- Embeds the extraction step of `generatePracticeProblems` and
`generateQuiz` (learning.ts lines 166-183 and 302-314): pick the regex
match or the whole text, `JSON.parse` it inside try/catch, and fall back to
the empty list when parsing fails or the value is not an array. -/
def extractJsonArray (raw : List Char) : List Json :=
  match parseJson (jsonStrChoice raw) with
  | some (Json.arr xs) => xs
  | _ => []

/-- Bracket-depth scan from an opening `[`: consume until the matching `]`
at depth zero, accumulating the balanced substring. -/
def scanBalance : List Char → Nat → List Char → Option (List Char)
  | [], _, _ => none
  | c :: rest, depth, acc =>
      if c = ']' then
        if depth = 1 then some ((c :: acc).reverse)
        else scanBalance rest (depth - 1) (c :: acc)
      else if c = '[' then scanBalance rest (depth + 1) (c :: acc)
      else scanBalance rest depth (c :: acc)

/-- First balanced bracketed substring: the first `[` matched to its
corresponding `]` by bracket-depth counting. -/
def depthScan : List Char → Option (List Char)
  | [] => none
  | c :: rest => if c = '[' then scanBalance rest 1 [c] else depthScan rest

/-- The extraction algorithm as the claim words it (direct parse first,
then the first depth-balanced bracketed substring), defined only to be
compared with the source-derived `extractJsonArray`. -/
def extractArrayClaimed (raw : List Char) : List Json :=
  match parseJson raw with
  | some (Json.arr xs) => xs
  | _ =>
      match depthScan raw with
      | some sub =>
          match parseJson sub with
          | some (Json.arr xs) => xs
          | _ => []
      | none => []

/-- A model text on which the two extraction algorithms disagree: a valid
one-record array followed by stray closing characters. -/
def trickyText : List Char :=
  "[\x7b\"a\":1\x7d] \x7d]".data

/-- Counterexample to claim C4: on `trickyText` the source's extraction
(greedy regex tried first, whole text as fallback) returns the empty
sequence, while the claimed algorithm (direct parse first, then the first
depth-balanced bracketed substring) returns the one-record array; so the
extraction step does not implement the claimed algorithm. -/
theorem extractJsonArray_not_claimed_algorithm :
    extractJsonArray trickyText = [] ∧
    extractArrayClaimed trickyText = [Json.obj [("a", Json.num 1)]] ∧
    extractJsonArray trickyText ≠ extractArrayClaimed trickyText := by
  refine ⟨rfl, rfl, ?_⟩
  intro h
  rw [show extractJsonArray trickyText = [] from rfl,
    show extractArrayClaimed trickyText = [Json.obj [("a", Json.num 1)]] from rfl] at h
  exact (List.cons_ne_nil _ _) h.symm

/-- Claim C4 as amended: the extraction step never raises and yields either
a parsed array or the empty sequence; its candidate text is the greedy
regex match (from the first `[` that opens onto a brace, to the last
closing brace-bracket pair) when one exists, and otherwise the whole raw
text; the result is the parsed array when the candidate parses as an array
and the empty sequence otherwise; and any regex match is a substring of the
raw text. -/
theorem extractJsonArray_characterization :
    ∀ (raw : List Char),
      (∀ xs, parseJson (jsonStrChoice raw) = some (Json.arr xs) →
        extractJsonArray raw = xs) ∧
      ((∀ xs, parseJson (jsonStrChoice raw) ≠ some (Json.arr xs)) →
        extractJsonArray raw = []) ∧
      (∀ m, jsonArrayMatch raw = some m → m <:+: raw) := by
  intro raw
  refine ⟨?_, ?_, ?_⟩
  · intro xs h
    unfold extractJsonArray
    rw [h]
  · intro h
    unfold extractJsonArray
    rcases hp : parseJson (jsonStrChoice raw) with _ | v
    · rfl
    · cases v with
      | arr xs => exact absurd hp (h xs)
      | null => rfl
      | bool b => rfl
      | num n => rfl
      | str s => rfl
      | obj kvs => rfl
  · induction raw with
    | nil => intro m h; exact absurd h (by simp [jsonArrayMatch])
    | cons c rest ih =>
        intro m h
        unfold jsonArrayMatch at h
        split at h
        case isTrue hc =>
          split at h
          case h_1 body hdrop =>
            split at h
            case h_1 consumed hfind =>
              have hm : m = '[' :: (rest.takeWhile regexWs ++ '\x7b' :: body.take consumed) :=
                (Option.some.inj h).symm
              subst hm hc
              have hsplit : rest.takeWhile regexWs ++ '\x7b' :: body = rest := by
                rw [← hdrop]
                exact List.takeWhile_append_dropWhile regexWs rest
              obtain ⟨t, ht⟩ := List.take_prefix consumed body
              refine List.IsPrefix.isInfix ⟨t, ?_⟩
              have h2 := congrArg
                (fun x => '[' :: (rest.takeWhile regexWs ++ '\x7b' :: x)) ht
              simp only [List.cons_append, List.append_assoc] at h2 ⊢
              rw [h2, hsplit]
            case h_2 hfind => exact List.infix_cons (ih m h)
          case h_2 hdrop => exact List.infix_cons (ih m h)
        case isFalse hc => exact List.infix_cons (ih m h)

/-- Witness for the amended claim C4: prose around a valid array still
yields the parsed records, the regex match is a substring of the raw text,
and a text with no array at all yields the empty sequence. -/
theorem extractJsonArray_characterization_witness :
    extractJsonArray "ok [\x7b\x7d] end".data = [Json.obj []] ∧
    "[\x7b\x7d]".data <:+: "ok [\x7b\x7d] end".data ∧
    extractJsonArray "no array here".data = [] := by
  refine ⟨?_, ?_, ?_⟩
  · exact (extractJsonArray_characterization "ok [\x7b\x7d] end".data).1
      [Json.obj []] rfl
  · exact (extractJsonArray_characterization "ok [\x7b\x7d] end".data).2.2
      "[\x7b\x7d]".data rfl
  · refine (extractJsonArray_characterization "no array here".data).2.1 ?_
    intro xs h
    rw [show parseJson (jsonStrChoice "no array here".data) = none from rfl] at h
    exact Option.noConfusion h

/-! ### Content Generator (learning.ts lines 90-211, 226-347, 366-399)

The external model call is passed in as an `Except`: `Except.error` is an
`invokeLLM` call that throws, `Except.ok choices` a response whose entries
collapse `choices[i]?.message?.content` into present string, present
non-string, or absent content.  The per-item persistence outcome of
`createPracticeProblem` / `createQuiz` is a predicate on the candidate
item; the chat history only shapes the prompt and does not affect the
properties modelled here. -/

/-- The content of one response choice as the source inspects it. -/
inductive LLMContent where
  | str (s : String)
  | nonstr
  | absent

/-- The `{problems, count}` result of `generatePracticeProblems`. -/
structure GenProblemsResult where
  problems : List Json
  count : Nat

/-- Property access `quiz[key]` on a parsed candidate (undefined when the
value is not an object or lacks the key). -/
def jsonGet (j : Json) (key : String) : Option Json :=
  match j with
  | Json.obj fields => (fields.find? (fun kv => kv.1 == key)).map (fun kv => kv.2)
  | _ => none

/-- The projection `{question, options, explanation}` pushed onto
`savedQuizzes` (learning.ts lines 327-331). -/
structure SavedQuiz where
  question : Option Json
  options : Option Json
  explanation : Option Json

/-- Build the saved view of one quiz candidate. -/
def quizView (j : Json) : SavedQuiz :=
  { question := jsonGet j "question"
    options := jsonGet j "options"
    explanation := jsonGet j "explanation" }

/-- The `{quizzes, count}` result of `generateQuiz`. -/
structure GenQuizResult where
  quizzes : List SavedQuiz
  count : Nat

/-- The per-item persistence loop (learning.ts lines 186-199 and 317-335):
try to persist each candidate in order; a failing item is logged and
skipped, the loop continues, and the successfully persisted items are
accumulated in order. -/
def persistLoop {α : Type} (items : List α) (ok : α → Bool) : List α :=
  match items with
  | [] => []
  | x :: xs => if ok x then x :: persistLoop xs ok else persistLoop xs ok

/-- Embeds `generatePracticeProblems` (learning.ts lines 90-211): a thrown
model call is re-thrown by the outer catch as the generic failure; a
response with no choices, or absent, non-string or empty content, returns
`{problems: [], count: 0}`; otherwise the response text goes through the
extractor and the persistence loop. -/
def generatePracticeProblems (llm : Except Unit (List LLMContent))
    (persistOk : Json → Bool) : Except String GenProblemsResult :=
  match llm with
  | Except.error _ => Except.error "Failed to generate practice problems"
  | Except.ok choices =>
      match choices with
      | [] => Except.ok { problems := [], count := 0 }
      | content :: _ =>
          match content with
          | LLMContent.absent => Except.ok { problems := [], count := 0 }
          | LLMContent.nonstr => Except.ok { problems := [], count := 0 }
          | LLMContent.str s =>
              if s = "" then Except.ok { problems := [], count := 0 }
              else
                let saved := persistLoop (extractJsonArray s.data) persistOk
                Except.ok { problems := saved, count := saved.length }

/-- Embeds `generateQuiz` (learning.ts lines 226-347): same structure as
`generatePracticeProblems`, with the saved items projected to
`{question, options, explanation}`. -/
def generateQuiz (llm : Except Unit (List LLMContent))
    (persistOk : Json → Bool) : Except String GenQuizResult :=
  match llm with
  | Except.error _ => Except.error "Failed to generate quiz"
  | Except.ok choices =>
      match choices with
      | [] => Except.ok { quizzes := [], count := 0 }
      | content :: _ =>
          match content with
          | LLMContent.absent => Except.ok { quizzes := [], count := 0 }
          | LLMContent.nonstr => Except.ok { quizzes := [], count := 0 }
          | LLMContent.str s =>
              if s = "" then Except.ok { quizzes := [], count := 0 }
              else
                let saved :=
                  (persistLoop (extractJsonArray s.data) persistOk).map quizView
                Except.ok { quizzes := saved, count := saved.length }

/-- One stored quiz row, with the fields `submitQuizAnswer` reads. -/
structure Quiz where
  id : Nat
  question : String
  correctAnswer : String
  explanation : String
deriving DecidableEq

/-- The `{isCorrect, correctAnswer, explanation}` grading result. -/
structure SubmitResult where
  isCorrect : Bool
  correctAnswer : String
  explanation : String
deriving DecidableEq

/-- Embeds the body of `submitQuizAnswer` (learning.ts lines 374-394,
before the catch): look the quiz up in the session's quiz set, throw
`Quiz not found` when absent, grade by exact string equality, persist
answer and outcome on the quiz row, then run the Performance Tracker
update; `perfUpdateOk` is whether that secondary update succeeds, and its
failure is the exception this body propagates. -/
def submitQuizAnswerBody (quizzes : List Quiz) (quizId : Nat)
    (userAnswer : String) (perfUpdateOk : Bool) : Except String SubmitResult :=
  match quizzes.find? (fun q => q.id == quizId) with
  | none => Except.error "Quiz not found"
  | some quiz =>
      let isCorrect := quiz.correctAnswer == userAnswer
      if perfUpdateOk then
        Except.ok { isCorrect := isCorrect, correctAnswer := quiz.correctAnswer,
                    explanation := quiz.explanation }
      else Except.error "Failed to update session performance"

/-- Embeds the whole `submitQuizAnswer` mutation (learning.ts lines
366-399): the catch handler logs any error from the body and re-throws the
generic failure. -/
def submitQuizAnswer (quizzes : List Quiz) (quizId : Nat)
    (userAnswer : String) (perfUpdateOk : Bool) : Except String SubmitResult :=
  match submitQuizAnswerBody quizzes quizId userAnswer perfUpdateOk with
  | Except.ok r => Except.ok r
  | Except.error _ => Except.error "Failed to submit quiz answer"

/-- The persistence loop keeps exactly the successfully persisted items. -/
lemma persistLoop_eq_filter {α : Type} (items : List α) (ok : α → Bool) :
    persistLoop items ok = items.filter ok := by
  induction items with
  | nil => rfl
  | cons x xs ih =>
      unfold persistLoop
      by_cases hx : ok x = true
      · rw [if_pos hx, ih, List.filter_cons_of_pos hx]
      · rw [if_neg hx, ih, List.filter_cons_of_neg (by simpa using hx)]

/-- A quiz row set used by the concrete grading witnesses below. -/
def quizzesExample : List Quiz :=
  [{ id := 1, question := "q", correctAnswer := "B", explanation := "because" }]

/-- Claim C8: grading looks the quiz up by identifier in the session's quiz
set and fails with the not-found error when absent; otherwise `isCorrect`
holds exactly when the user answer is string-equal (case-sensitive, no
normalization) to the stored correct-answer token, and the result carries
the stored `correctAnswer` and `explanation`. -/
theorem submitQuizAnswer_grading :
    ∀ (quizzes : List Quiz) (quizId : Nat) (userAnswer : String),
      (quizzes.find? (fun q => q.id == quizId) = none →
        submitQuizAnswerBody quizzes quizId userAnswer true =
          Except.error "Quiz not found") ∧
      (∀ quiz, quizzes.find? (fun q => q.id == quizId) = some quiz →
        submitQuizAnswerBody quizzes quizId userAnswer true =
          Except.ok { isCorrect := quiz.correctAnswer == userAnswer,
                      correctAnswer := quiz.correctAnswer,
                      explanation := quiz.explanation } ∧
        ((quiz.correctAnswer == userAnswer) = true ↔
          quiz.correctAnswer = userAnswer)) := by
  intro quizzes quizId userAnswer
  constructor
  · intro h
    unfold submitQuizAnswerBody
    rw [h]
  · intro quiz h
    constructor
    · unfold submitQuizAnswerBody
      rw [h]
      rfl
    · exact beq_iff_eq

/-- Witness for claim C8: in a one-quiz set with stored answer `"B"`, the
lowercase answer `"b"` grades incorrect (case-sensitive comparison), and an
unknown quiz identifier yields the not-found error. -/
theorem submitQuizAnswer_grading_witness :
    submitQuizAnswerBody quizzesExample 1 "b" true =
      Except.ok { isCorrect := false, correctAnswer := "B", explanation := "because" } ∧
    submitQuizAnswerBody quizzesExample 2 "B" true =
      Except.error "Quiz not found" := by
  constructor
  · have h := ((submitQuizAnswer_grading quizzesExample 1 "b").2
      { id := 1, question := "q", correctAnswer := "B", explanation := "because" } rfl).1
    rw [h]
    rfl
  · exact (submitQuizAnswer_grading quizzesExample 2 "B").1 rfl

/-- Counterexample to claim C5: with the quiz present and graded, a failing
Performance Tracker update makes the whole operation return the generic
failure instead of the grading result. -/
theorem submitQuizAnswer_perf_failure_counterexample :
    submitQuizAnswer quizzesExample 1 "B" false =
      Except.error "Failed to submit quiz answer" ∧
    submitQuizAnswer quizzesExample 1 "B" false ≠
      Except.ok { isCorrect := true, correctAnswer := "B", explanation := "because" } := by
  refine ⟨rfl, ?_⟩
  intro h
  rw [show submitQuizAnswer quizzesExample 1 "B" false =
      Except.error "Failed to submit quiz answer" from rfl] at h
  exact Except.noConfusion h

/-- Claim C5 as amended: a failure raised by the Performance Tracker update
after the quiz row is graded and persisted is caught by the operation's
outer handler, which logs it and re-throws the generic failure, so the
grading result is not returned to the caller. -/
theorem submitQuizAnswer_perf_failure_propagates :
    ∀ (quizzes : List Quiz) (quizId : Nat) (userAnswer : String) (quiz : Quiz),
      quizzes.find? (fun q => q.id == quizId) = some quiz →
      submitQuizAnswer quizzes quizId userAnswer false =
        Except.error "Failed to submit quiz answer" := by
  intro quizzes quizId userAnswer quiz h
  unfold submitQuizAnswer submitQuizAnswerBody
  rw [h]
  rfl

/-- Witness for the amended claim C5 on the concrete one-quiz set. -/
theorem submitQuizAnswer_perf_failure_propagates_witness :
    submitQuizAnswer quizzesExample 1 "B" false =
      Except.error "Failed to submit quiz answer" :=
  submitQuizAnswer_perf_failure_propagates quizzesExample 1 "B"
    { id := 1, question := "q", correctAnswer := "B", explanation := "because" } rfl

/-- Counterexample to claim C6: an `invokeLLM` call that throws does not
soft-fail to `{problems: [], count: 0}`; the outer catch re-throws, so the
operation fails. -/
theorem generatePracticeProblems_throw_counterexample :
    generatePracticeProblems (Except.error ()) (fun _ => true) =
      Except.error "Failed to generate practice problems" ∧
    generatePracticeProblems (Except.error ()) (fun _ => true) ≠
      Except.ok { problems := [], count := 0 } := by
  refine ⟨rfl, ?_⟩
  intro h
  rw [show generatePracticeProblems (Except.error ()) (fun _ => true) =
      Except.error "Failed to generate practice problems" from rfl] at h
  exact Except.noConfusion h

/-- Claim C6 as amended: when the model call returns but carries no usable
text (no choices, or absent, non-string or empty content), the operation
returns `{problems: [], count: 0}` without raising; a model call that
throws, however, propagates as an operation failure. -/
theorem generatePracticeProblems_soft_fail :
    ∀ (persistOk : Json → Bool),
      generatePracticeProblems (Except.ok []) persistOk =
        Except.ok { problems := [], count := 0 } ∧
      (∀ rest, generatePracticeProblems (Except.ok (LLMContent.absent :: rest)) persistOk =
        Except.ok { problems := [], count := 0 }) ∧
      (∀ rest, generatePracticeProblems (Except.ok (LLMContent.nonstr :: rest)) persistOk =
        Except.ok { problems := [], count := 0 }) ∧
      (∀ rest, generatePracticeProblems (Except.ok (LLMContent.str "" :: rest)) persistOk =
        Except.ok { problems := [], count := 0 }) ∧
      generatePracticeProblems (Except.error ()) persistOk =
        Except.error "Failed to generate practice problems" := by
  intro persistOk
  exact ⟨rfl, fun rest => rfl, fun rest => rfl, fun rest => rfl, rfl⟩

/-- Claim C7: the per-item persistence loop returns exactly the
successfully persisted candidates in their original order (a sublist of the
extracted candidates), the failing items are skipped without aborting the
batch, and both generation operations report the count as the number of
persisted items. -/
theorem generation_per_item_isolation :
    ∀ (items : List Json) (ok : Json → Bool) (s : String),
      persistLoop items ok = items.filter ok ∧
      List.Sublist (items.filter ok) items ∧
      generatePracticeProblems (Except.ok [LLMContent.str s]) ok =
        Except.ok { problems := (extractJsonArray s.data).filter ok,
                    count := ((extractJsonArray s.data).filter ok).length } ∧
      generateQuiz (Except.ok [LLMContent.str s]) ok =
        Except.ok { quizzes := ((extractJsonArray s.data).filter ok).map quizView,
                    count := (((extractJsonArray s.data).filter ok).map quizView).length } := by
  intro items ok s
  refine ⟨persistLoop_eq_filter items ok, List.filter_sublist items, ?_, ?_⟩
  · by_cases hs : s = ""
    · subst hs
      rfl
    · simp only [generatePracticeProblems]
      rw [if_neg hs]
      simp only [persistLoop_eq_filter]
  · by_cases hs : s = ""
    · subst hs
      rfl
    · simp only [generateQuiz]
      rw [if_neg hs]
      simp only [persistLoop_eq_filter]

end Economentor
